import Mathlib

/-!
Verification of the open-targets-cancer-mesh pipeline.

Each Python component is shallowly embedded as an executable Lean
definition and the specified properties are settled as theorems.
Python strings are modelled as `List Char` (Python's `str` is a
sequence of characters); pandas DataFrames are modelled as lists of
structure values; operations that can raise (KeyError on a missing
column or dict key) return `Except Unit`.
-/

namespace OTMesh

/-- Python strings are character sequences. -/
abbrev Str := List Char

/-- ASCII lowercasing of one character, as used by `str.lower()` on the
characters inspected by the MeSH-prefix test. -/
def charLower (c : Char) : Char :=
  if 'A' ≤ c ∧ c ≤ 'Z' then Char.ofNat (c.toNat + 32) else c

/-- `s.lower()` restricted to the ASCII range. -/
def strLower (s : Str) : Str := s.map charLower

/-- `s.strip()`: drop whitespace from both ends. -/
def strTrim (s : Str) : Str :=
  ((s.dropWhile Char.isWhitespace).reverse.dropWhile Char.isWhitespace).reverse

/-- Total lexicographic comparison on character sequences, used to model
the ascending orders produced by pandas `sort_values` on string columns. -/
def lexLe : Str → Str → Bool
  | [], _ => true
  | _ :: _, [] => false
  | a :: as, b :: bs => if a = b then lexLe as bs else decide (a < b)

/-- pandas `drop_duplicates(subset=k, keep='last')`: keep a row exactly
when no later row carries the same key; kept rows stay in order. -/
def keepLastBy {α β : Type} (k : α → β) [DecidableEq β] : List α → List α
  | [] => []
  | a :: rest =>
    if rest.any (fun b => decide (k b = k a)) then keepLastBy k rest
    else a :: keepLastBy k rest

/-- Worker for `keepFirstBy`, threading the set of keys already seen. -/
def keepFirstByAux {α β : Type} (k : α → β) [DecidableEq β] :
    List α → List β → List α
  | [], _ => []
  | a :: rest, seen =>
    if k a ∈ seen then keepFirstByAux k rest seen
    else a :: keepFirstByAux k rest (k a :: seen)

/-- pandas `drop_duplicates(subset=k, keep='first')`: keep the first row
carrying each key. -/
def keepFirstBy {α β : Type} (k : α → β) [DecidableEq β] (l : List α) : List α :=
  keepFirstByAux k l []

/-- Distinct values of a list in order of first appearance. -/
def dedupKeys {β : Type} [DecidableEq β] (l : List β) : List β :=
  keepFirstBy id l

/- ### Taxonomy parser — src/src/pipeline/extract_mesh.py, parse_mesh_file -/

/-- The mutable `current` dict of `parse_mesh_file`.  A field is `none`
when the corresponding dict key is absent. -/
structure MeshCur where
  ui : Option Str
  mh : Option Str
  mn : Option (List Str)
deriving DecidableEq, Repr

/-- A parsed MeSH descriptor record (`MH` may be missing). -/
structure MeshRecord where
  ui : Str
  mh : Option Str
  mn : List Str
deriving DecidableEq, Repr

def newrecordMarker : Str := "*NEWRECORD".toList
def uiTag : Str := "UI = ".toList
def mhTag : Str := "MH = ".toList
def mnTag : Str := "MN = ".toList

/-- `if current.get('UI') and current.get('MN'): records.append(current)`.
Python truthiness: a missing key, an empty string and an empty list are
all falsy. -/
def flushRecord (c : MeshCur) : Option MeshRecord :=
  match c.ui, c.mn with
  | some u, some ts => if u ≠ [] ∧ ts ≠ [] then some ⟨u, c.mh, ts⟩ else none
  | _, _ => none

/-- One iteration of the `for line in f` loop of `parse_mesh_file`.  An
`MN = ` line without a prior `*NEWRECORD` raises `KeyError: 'MN'`
(`current` is `{}` so `current['MN'].append` fails), modelled as
`Except.error ()`. -/
def meshStep (rawLine : Str) (recs : List MeshRecord) (cur : MeshCur) :
    Except Unit (List MeshRecord × MeshCur) :=
  let line := strTrim rawLine
  if line = newrecordMarker then
    .ok (recs ++ (flushRecord cur).toList, ⟨none, none, some []⟩)
  else if uiTag.isPrefixOf line then
    .ok (recs, { cur with ui := some (line.drop 5) })
  else if mhTag.isPrefixOf line then
    .ok (recs, { cur with mh := some (line.drop 5) })
  else if mnTag.isPrefixOf line then
    match cur.mn with
    | some ts => .ok (recs, { cur with mn := some (ts ++ [line.drop 5]) })
    | none => .error ()
  else
    .ok (recs, cur)

/-- The line loop of `parse_mesh_file`, followed by the explicit flush of
the last record after the loop. -/
def parseLines : List Str → List MeshRecord → MeshCur → Except Unit (List MeshRecord)
  | [], recs, cur => .ok (recs ++ (flushRecord cur).toList)
  | l :: ls, recs, cur =>
    match meshStep l recs cur with
    | .ok (recs', cur') => parseLines ls recs' cur'
    | .error e => .error e

/-- `parse_mesh_file`: parse the descriptor file given as a list of lines,
starting from the empty dict `current = {}`. -/
def parse_mesh_file (lines : List Str) : Except Unit (List MeshRecord) :=
  parseLines lines [] ⟨none, none, none⟩

/- ### Hierarchy extractor — src/src/pipeline/extract_mesh.py,
extract_c04_hierarchy -/

/-- One row of the extracted hierarchy DataFrame. -/
structure HierRow where
  mesh_id : Str
  mesh_name : Str
  tree_number : Str
  level : Nat
deriving DecidableEq, Repr

/-- The `rows` list built by the nested loops of `extract_c04_hierarchy`:
one row per (record, tree number) whose tree number starts with the
filter string, with `level = tree_num.count('.') + 1` and the name
defaulting to the empty string (`rec.get('MH', '')`). -/
def hierRowsOf (records : List MeshRecord) (pfx : Str) : List HierRow :=
  records.flatMap (fun rec =>
    (rec.mn.filter (fun tn => pfx.isPrefixOf tn)).map (fun tn =>
      ⟨rec.ui, rec.mh.getD [], tn, tn.count '.' + 1⟩))

/-- Ascending order on (tree_number, mesh_id), for
`sort_values(['tree_number', 'mesh_id'])`. -/
def hierSortLe (a b : HierRow) : Bool :=
  if a.tree_number = b.tree_number then lexLe a.mesh_id b.mesh_id
  else lexLe a.tree_number b.tree_number

/-- `extract_c04_hierarchy`.  When no row qualifies, `pd.DataFrame(rows)`
has no columns at all and `df.sort_values(['tree_number', 'mesh_id'])`
raises `KeyError: 'tree_number'`; this is modelled as `Except.error ()`. -/
def extract_c04_hierarchy (records : List MeshRecord) (pfx : Str) :
    Except Unit (List HierRow) :=
  if hierRowsOf records pfx = [] then .error ()
  else .ok (List.insertionSort (fun a b => hierSortLe a b = true)
    (hierRowsOf records pfx))

/- ### Disease filter — src/src/pipeline/extract_diseases.py -/

/-- A row of the Open Targets disease index; `ancestors` and `dbXRefs`
are `none` when the field is null/NaN. -/
structure DiseaseRow where
  id : Str
  name : Str
  ancestors : Option (List Str)
  dbXRefs : Option (List Str)
deriving DecidableEq, Repr

/-- `has_neoplasm_ancestor` inside `filter_cancer_diseases`: a None/NaN
ancestor list is simply not a member. -/
def has_neoplasm_ancestor (cancer_ta : Str) : Option (List Str) → Bool
  | none => false
  | some l => decide (cancer_ta ∈ l)

/-- `filter_cancer_diseases`: keep rows whose ancestors contain the
cancer therapeutic area, then drop the top-level neoplasm node itself. -/
def filter_cancer_diseases (diseases : List DiseaseRow) (cancer_ta : Str) :
    List DiseaseRow :=
  let filtered := diseases.filter (fun r => has_neoplasm_ancestor cancer_ta r.ancestors)
  filtered.filter (fun r => decide (r.id ≠ cancer_ta))

/-- The lowercase tag `"mesh:"` that cross references are matched against. -/
def meshTagLower : Str := "mesh:".toList

/-- The `mesh_ids` accumulator loop of `get_mesh_ids`: collect `ref[5:]`
for each truthy ref whose lowercase form starts with `"mesh:"`, in
order. -/
def meshIdsOf (refs : List Str) : List Str :=
  refs.foldl (fun acc ref =>
    if ref ≠ [] ∧ meshTagLower.isPrefixOf (strLower ref) then acc ++ [ref.drop 5]
    else acc) []

/-- `get_mesh_ids` inside `extract_mesh_ids`: None/NaN xrefs give None;
otherwise run the accumulator loop and return None when nothing
matched (`return mesh_ids if mesh_ids else None`). -/
def get_mesh_ids (xrefs : Option (List Str)) : Option (List Str) :=
  match xrefs with
  | none => none
  | some refs => if meshIdsOf refs = [] then none else some (meshIdsOf refs)

/-- A row of the Step 1 output table (diseaseId, diseaseName, meshIds). -/
structure CancerDisease where
  diseaseId : Str
  diseaseName : Str
  meshIds : Option (List Str)
deriving DecidableEq, Repr

/-- `extract_mesh_ids`: project id/name and attach the extracted MeSH ids. -/
def extract_mesh_ids (diseases : List DiseaseRow) : List CancerDisease :=
  diseases.map (fun r => ⟨r.id, r.name, get_mesh_ids r.dbXRefs⟩)

/- ### Crosswalk builder — src/src/pipeline/build_crosswalk.py,
build_disease_mesh_crosswalk -/

/-- A row of the disease-MeSH crosswalk after the hierarchy join. -/
structure CrosswalkRow where
  diseaseId : Str
  diseaseName : Str
  meshId : Str
  mesh_name : Str
  tree_number : Str
  level : Nat
deriving DecidableEq, Repr

/-- The explode loop: one (diseaseId, diseaseName, meshId) row per MeSH
id of every disease whose `meshIds` is not null. -/
def explodeMeshIds (cancer : List CancerDisease) : List (Str × Str × Str) :=
  (cancer.filter (fun r => r.meshIds.isSome)).flatMap (fun r =>
    (r.meshIds.getD []).map (fun m => (r.diseaseId, r.diseaseName, m)))

/-- `crosswalk.merge(mesh_hierarchy, on="meshId", how="inner")`: every
exploded row paired with every hierarchy row carrying the same MeSH id. -/
def joinHierarchy (base : List (Str × Str × Str)) (hier : List HierRow) :
    List CrosswalkRow :=
  base.flatMap (fun b =>
    (hier.filter (fun h => decide (h.mesh_id = b.2.2))).map (fun h =>
      ⟨b.1, b.2.1, b.2.2, h.mesh_name, h.tree_number, h.level⟩))

/-- The (diseaseId, meshId) deduplication key. -/
def cwKey (r : CrosswalkRow) : Str × Str := (r.diseaseId, r.meshId)

/-- Ascending order on (diseaseId, level), for the final
`sort_values(['diseaseId', 'level'])`. -/
def cwOutLe (a b : CrosswalkRow) : Bool :=
  if a.diseaseId = b.diseaseId then decide (a.level ≤ b.level)
  else lexLe a.diseaseId b.diseaseId

/-- `build_disease_mesh_crosswalk`: explode, inner-join with the
hierarchy, sort by level descending, `drop_duplicates` on
(diseaseId, meshId) keeping the last (lowest-level) row, and sort by
(diseaseId, level).  When the explode produces no rows the intermediate
`pd.DataFrame(rows)` has no columns and `.merge(..., on="meshId")`
raises `KeyError`, modelled as `Except.error ()`. -/
def build_disease_mesh_crosswalk (cancer : List CancerDisease)
    (hier : List HierRow) : Except Unit (List CrosswalkRow) :=
  if explodeMeshIds cancer = [] then .error ()
  else .ok (List.insertionSort (fun a b => cwOutLe a b = true)
    (keepLastBy cwKey
      (List.insertionSort (fun a b : CrosswalkRow => b.level ≤ a.level)
        (joinHierarchy (explodeMeshIds cancer) hier))))

/- ### Association aggregator — src/src/pipeline/build_crosswalk.py,
build_final_dataset -/

/-- A gene-disease association row; the float score is modelled as a
rational. -/
structure AssocRow where
  diseaseId : Str
  targetId : Str
  score : ℚ
  evidenceCount : Nat
deriving DecidableEq, Repr

/-- A row of the aggregated gene-MeSH table. -/
structure GeneMeshRow where
  targetId : Str
  meshId : Str
  score : ℚ
  evidenceCount : Nat
deriving DecidableEq, Repr

/-- The `max` reducer of the groupby aggregation (groups are nonempty by
construction; `[]` is never hit). -/
def maxScore : List ℚ → ℚ
  | [] => 0
  | x :: xs => xs.foldl max x

/-- Ascending order on (targetId, meshId) group keys; pandas `groupby`
sorts the group keys. -/
def pairLe (a b : Str × Str) : Bool :=
  if a.1 = b.1 then lexLe a.2 b.2 else lexLe a.1 b.1

/-- The inner join of `build_final_dataset`: associations restricted to
diseases present in the crosswalk (`isin`), then merged with the
crosswalk's (diseaseId, meshId) projection on diseaseId. -/
def joinedAssoc (associations : List AssocRow) (crosswalk : List CrosswalkRow) :
    List (AssocRow × Str) :=
  (associations.filter (fun a =>
      decide (a.diseaseId ∈ crosswalk.map (fun c => c.diseaseId)))).flatMap
    (fun a => (crosswalk.filter (fun c => decide (c.diseaseId = a.diseaseId))).map
      (fun c => (a, c.meshId)))

/-- `build_final_dataset`: group the joined rows by (targetId, meshId)
with `max` on score and `sum` on evidenceCount (pandas groupby sorts the
group keys). -/
def build_final_dataset (associations : List AssocRow)
    (crosswalk : List CrosswalkRow) : List GeneMeshRow :=
  (List.insertionSort (fun k1 k2 => pairLe k1 k2 = true)
    (dedupKeys ((joinedAssoc associations crosswalk).map
      (fun p => (p.1.targetId, p.2))))).map (fun k =>
    ⟨k.1, k.2,
      maxScore (((joinedAssoc associations crosswalk).filter
        (fun p => decide ((p.1.targetId, p.2) = k))).map (fun p => p.1.score)),
      (((joinedAssoc associations crosswalk).filter
        (fun p => decide ((p.1.targetId, p.2) = k))).map
          (fun p => p.1.evidenceCount)).sum⟩)

/- ### Identifier remapper — src/src/pipeline/add_entrez.py -/

/-- A row of the NCBI gene2ensembl table (the columns the pipeline
keeps). -/
structure Gene2EnsemblRow where
  tax_id : Nat
  entrezGeneId : Nat
  ensemblGeneId : Str
deriving DecidableEq, Repr

/-- `load_gene2ensembl`: filter to one taxon, project the two id
columns, `drop_duplicates()` on the projected pairs, then
`drop_duplicates(subset=['ensemblGeneId'], keep='first')`. -/
def load_gene2ensembl (raw : List Gene2EnsemblRow) (tax : Nat) :
    List (Nat × Str) :=
  let human := raw.filter (fun r => decide (r.tax_id = tax))
  let mapping := human.map (fun r => (r.entrezGeneId, r.ensemblGeneId))
  let dedup1 := keepFirstBy id mapping
  keepFirstBy Prod.snd dedup1

/-- The unique match a left join on `targetId` attaches from the
deduplicated mapping (the mapping holds at most one row per Ensembl id,
so `find?` returns exactly the joined row, or `none` → NaN). -/
def lookupEnsembl (mapping : List (Nat × Str)) (t : Str) : Option Nat :=
  (mapping.find? (fun p => decide (p.2 = t))).map Prod.fst

/-- A row of the final four-column output table. -/
structure FinalRow where
  disease_mesh_id : Str
  gene_entrez_id : Nat
  ot_score : ℚ
  evidence_count : Nat
deriving DecidableEq, Repr

/-- The core of `add_entrez.run` after loading: left-join the mapping
onto the gene-MeSH table, `dropna(subset=['entrezGeneId'])`, project the
four output columns and sort by score descending. -/
def add_entrez_core (df : List GeneMeshRow) (entrez_map : List (Nat × Str)) :
    List FinalRow :=
  List.insertionSort (fun a b : FinalRow => b.ot_score ≤ a.ot_score)
    (((df.map (fun r => (r, lookupEnsembl entrez_map r.targetId))).filterMap
        (fun p => p.2.map (fun e => (p.1, e)))).map
      (fun p => (⟨p.1.meshId, p.2, p.1.score, p.1.evidenceCount⟩ : FinalRow)))

/-- `add_entrez.run` restricted to its data path: build the deduplicated
mapping and apply the join/dropna/sort pipeline. -/
def add_entrez_run (df : List GeneMeshRow) (raw : List Gene2EnsemblRow)
    (tax : Nat) : List FinalRow :=
  add_entrez_core df (load_gene2ensembl raw tax)

/- ### Artifact paths — extract_diseases.run writes, build_crosswalk.
load_cancer_diseases reads -/

/-- The path Step 1 writes its output to:
`processed_dir / "intermediate" / "cancer_diseases_mesh_crosswalk.parquet"`. -/
def step1_output_path (processed_dir : Str) : Str :=
  processed_dir ++ "/intermediate/cancer_diseases_mesh_crosswalk.parquet".toList

/-- The path Step 2 reads its input from:
`processed_dir / "cancer_diseases_mesh_crosswalk.parquet"`. -/
def step2_input_path (processed_dir : Str) : Str :=
  processed_dir ++ "/cancer_diseases_mesh_crosswalk.parquet".toList

/-! ### Helper lemmas -/

theorem keepLastBy_subset {α β : Type} (k : α → β) [DecidableEq β] :
    ∀ l : List α, ∀ a ∈ keepLastBy k l, a ∈ l := by
  intro l
  induction l with
  | nil => intro a ha; exact absurd ha (by simp [keepLastBy])
  | cons x rest ih =>
    intro a ha
    unfold keepLastBy at ha
    split at ha
    · exact List.mem_cons_of_mem x (ih a ha)
    · rcases List.mem_cons.1 ha with h | h
      · exact h ▸ List.mem_cons_self x rest
      · exact List.mem_cons_of_mem x (ih a h)

theorem keepLastBy_keys_complete {α β : Type} (k : α → β) [DecidableEq β] :
    ∀ l : List α, ∀ a ∈ l, ∃ b ∈ keepLastBy k l, k b = k a := by
  intro l
  induction l with
  | nil => intro a ha; exact absurd ha (by simp)
  | cons x rest ih =>
    intro a ha
    unfold keepLastBy
    rcases List.mem_cons.1 ha with rfl | hmem
    · split
      · next hany =>
        rcases List.any_eq_true.1 hany with ⟨b, hb, hkb⟩
        rcases ih b hb with ⟨c, hc, hkc⟩
        exact ⟨c, hc, hkc.trans (of_decide_eq_true hkb)⟩
      · exact ⟨a, List.mem_cons_self _ _, rfl⟩
    · split
      · exact ih a hmem
      · rcases ih a hmem with ⟨c, hc, hkc⟩
        exact ⟨c, List.mem_cons_of_mem x hc, hkc⟩

theorem keepLastBy_keys_nodup {α β : Type} (k : α → β) [DecidableEq β] :
    ∀ l : List α, ((keepLastBy k l).map k).Nodup := by
  intro l
  induction l with
  | nil => simp [keepLastBy]
  | cons x rest ih =>
    unfold keepLastBy
    split
    · exact ih
    · next hany =>
      simp only [List.map_cons, List.nodup_cons]
      refine ⟨fun hmem => ?_, ih⟩
      rcases List.mem_map.1 hmem with ⟨b, hb, hkb⟩
      have hb' : b ∈ rest := keepLastBy_subset k rest b hb
      exact hany (List.any_eq_true.2 ⟨b, hb', decide_eq_true hkb⟩)

theorem keepLastBy_min {α β : Type} (k : α → β) [DecidableEq β] (f : α → Nat) :
    ∀ l : List α, l.Pairwise (fun a b => f b ≤ f a) →
      ∀ r ∈ keepLastBy k l, ∀ s ∈ l, k s = k r → f r ≤ f s := by
  intro l
  induction l with
  | nil => intro _ r hr; exact absurd hr (by simp [keepLastBy])
  | cons x rest ih =>
    intro hp r hr s hs hks
    rcases List.pairwise_cons.1 hp with ⟨hx, hrest⟩
    unfold keepLastBy at hr
    split at hr
    · rcases List.mem_cons.1 hs with rfl | hs'
      · exact hx r (keepLastBy_subset k rest r hr)
      · exact ih hrest r hr s hs' hks
    · next hany =>
      rcases List.mem_cons.1 hr with rfl | hr'
      · rcases List.mem_cons.1 hs with rfl | hs'
        · exact le_refl _
        · exact absurd (List.any_eq_true.2 ⟨s, hs', decide_eq_true hks⟩) hany
      · rcases List.mem_cons.1 hs with rfl | hs'
        · exact hx r (keepLastBy_subset k rest r hr')
        · exact ih hrest r hr' s hs' hks

theorem mem_keepFirstByAux_id {β : Type} [DecidableEq β] :
    ∀ (l : List β) (seen : List β) (x : β),
      x ∈ keepFirstByAux id l seen ↔ x ∈ l ∧ x ∉ seen := by
  intro l
  induction l with
  | nil => intro seen x; simp [keepFirstByAux]
  | cons a rest ih =>
    intro seen x
    unfold keepFirstByAux
    split
    · next hmem =>
      rw [ih]
      simp only [List.mem_cons]
      constructor
      · rintro ⟨hx, hns⟩; exact ⟨Or.inr hx, hns⟩
      · rintro ⟨hx | hx, hns⟩
        · exact absurd (hx ▸ hmem) hns
        · exact ⟨hx, hns⟩
    · next hmem =>
      simp only [List.mem_cons, ih, List.mem_cons] at *
      constructor
      · rintro (rfl | ⟨hx, hns⟩)
        · exact ⟨Or.inl rfl, hmem⟩
        · exact ⟨Or.inr hx, fun hc => hns (Or.inr hc)⟩
      · rintro ⟨rfl | hx, hns⟩
        · exact Or.inl rfl
        · by_cases hxa : x = a
          · exact Or.inl hxa
          · exact Or.inr ⟨hx, fun hc => (by
              rcases hc with rfl | hc
              · exact hxa rfl
              · exact hns hc)⟩

theorem keepFirstByAux_id_nodup {β : Type} [DecidableEq β] :
    ∀ (l : List β) (seen : List β), (keepFirstByAux id l seen).Nodup := by
  intro l
  induction l with
  | nil => intro seen; simp [keepFirstByAux]
  | cons a rest ih =>
    intro seen
    unfold keepFirstByAux
    split
    · exact ih seen
    · refine List.nodup_cons.2 ⟨fun hc => ?_, ih (a :: seen)⟩
      exact ((mem_keepFirstByAux_id rest (a :: seen) a).1 hc).2 (List.mem_cons_self _ _)

theorem dedupKeys_nodup {β : Type} [DecidableEq β] (l : List β) :
    (dedupKeys l).Nodup :=
  keepFirstByAux_id_nodup l []

theorem mem_dedupKeys {β : Type} [DecidableEq β] (l : List β) (x : β) :
    x ∈ dedupKeys l ↔ x ∈ l := by
  unfold dedupKeys keepFirstBy
  rw [mem_keepFirstByAux_id]
  simp

theorem flatMap_filter_of_nil {α β : Type} (p : α → Bool) (f : α → List β) :
    ∀ l : List α, (∀ a ∈ l, p a = false → f a = []) →
      (l.filter p).flatMap f = l.flatMap f := by
  intro l
  induction l with
  | nil => intro _; rfl
  | cons a rest ih =>
    intro h
    rw [List.filter_cons]
    split
    · rw [List.flatMap_cons, List.flatMap_cons,
        ih (fun b hb => h b (List.mem_cons_of_mem a hb))]
    · next hp =>
      rw [List.flatMap_cons,
        h a (List.mem_cons_self a rest) (Bool.not_eq_true _ ▸ hp),
        List.nil_append, ih (fun b hb => h b (List.mem_cons_of_mem a hb))]

theorem filter_flatMap {α β : Type} (l : List α) (f : α → List β) (q : β → Bool) :
    (l.flatMap f).filter q = l.flatMap (fun a => (f a).filter q) := by
  induction l with
  | nil => rfl
  | cons a rest ih => rw [List.flatMap_cons, List.flatMap_cons, List.filter_append, ih]

theorem flatMap_ite_singleton {α β : Type} (p : α → Bool) (g : α → β) :
    ∀ l : List α, (l.flatMap (fun a => if p a then [g a] else [])) =
      (l.filter p).map g := by
  intro l
  induction l with
  | nil => rfl
  | cons a rest ih =>
    rw [List.flatMap_cons, List.filter_cons]
    split
    · simpa using ih
    · simpa using ih

theorem parseLines_append_marker (ls : List Str) :
    ∀ recs cur out, parseLines ls recs cur = .ok out →
      parseLines (ls ++ [newrecordMarker]) recs cur = .ok out := by
  induction ls with
  | nil =>
    intro recs cur out h
    simp only [parseLines, Except.ok.injEq] at h
    have hm : meshStep newrecordMarker recs cur =
        .ok (recs ++ (flushRecord cur).toList, ⟨none, none, some []⟩) := by
      unfold meshStep
      rw [show strTrim newrecordMarker = newrecordMarker from by decide]
      simp
    rw [List.nil_append]
    simp only [parseLines, hm]
    rw [show flushRecord ⟨none, none, some []⟩ = none from rfl]
    simp [h]
  | cons l ls ih =>
    intro recs cur out h
    simp only [List.cons_append, parseLines] at h ⊢
    cases h' : meshStep l recs cur with
    | ok p =>
      obtain ⟨r', c'⟩ := p
      rw [h'] at h
      exact ih r' c' out h
    | error e =>
      rw [h'] at h
      exact Except.noConfusion h

/-- Claim C2 (amended): the parser flushes the last record explicitly —
appending a trailing `*NEWRECORD` delimiter never changes a successful
parse — and a single well-formed record introduced by a leading
`*NEWRECORD` marker and ending with no trailing delimiter is yielded
exactly once.  (As stated, the claim fails: with no `*NEWRECORD` marker
at all the first `MN = ` line raises `KeyError: 'MN'`.) -/
theorem mesh_parser_last_record_flushed :
    (∀ (ls : List Str) (out : List MeshRecord), parse_mesh_file ls = .ok out →
      parse_mesh_file (ls ++ [newrecordMarker]) = .ok out) ∧
    parse_mesh_file ["*NEWRECORD".toList, "UI = D000001".toList,
        "MH = Foo".toList, "MN = C04.588".toList] =
      .ok [⟨"D000001".toList, some "Foo".toList, ["C04.588".toList]⟩] := by
  refine ⟨fun ls out h => parseLines_append_marker ls _ _ _ h, ?_⟩
  rfl

/-- Witness for the amended C2 claim at a concrete input. -/
theorem mesh_parser_last_record_flushed_witness :
    parse_mesh_file (["*NEWRECORD".toList, "UI = D1".toList, "MN = C04".toList]
        ++ [newrecordMarker]) =
      .ok [⟨"D1".toList, none, ["C04".toList]⟩] :=
  mesh_parser_last_record_flushed.1 _ _ (by rfl)

/-- Counterexample to claim C2 as stated: a single well-formed record
with no `*NEWRECORD` marker at all makes the parser raise
`KeyError: 'MN'` instead of yielding the record. -/
theorem mesh_parser_headerless_record_errors :
    parse_mesh_file ["UI = D000001".toList, "MH = Foo".toList,
        "MN = C04.588".toList] = .error () := by
  rfl

/-- Claim C3: the path Step 1 writes
(`processed_dir/intermediate/cancer_diseases_mesh_crosswalk.parquet`)
is never the path Step 2 reads
(`processed_dir/cancer_diseases_mesh_crosswalk.parquet`), for any
processed directory, so a fresh Step 1 run does not produce the file
Step 2 requires. -/
theorem step1_step2_path_mismatch (processed_dir : Str) :
    step1_output_path processed_dir ≠ step2_input_path processed_dir := by
  intro h
  have hlen := congrArg List.length h
  simp only [step1_output_path, step2_input_path, List.length_append] at hlen
  rw [show ("/intermediate/cancer_diseases_mesh_crosswalk.parquet".toList).length = 52
        from by decide,
      show ("/cancer_diseases_mesh_crosswalk.parquet".toList).length = 39
        from by decide] at hlen
  omega

/-- Claim C6: a successful hierarchy extraction returns, up to the final
sort, exactly one row per (record, tree number) pair whose tree number
starts with the filter string under exact character-prefix matching, and
every returned row has the stated prefix and `level` equal to its dot
count plus one. -/
theorem hierarchy_rows_exact (records : List MeshRecord) (pfx : Str)
    (out : List HierRow) (h : extract_c04_hierarchy records pfx = .ok out) :
    out.Perm (records.flatMap (fun rec =>
      (rec.mn.filter (fun tn => pfx.isPrefixOf tn)).map (fun tn =>
        ⟨rec.ui, rec.mh.getD [], tn, tn.count '.' + 1⟩))) ∧
    ∀ r ∈ out, pfx.isPrefixOf r.tree_number = true ∧
      r.level = r.tree_number.count '.' + 1 := by
  unfold extract_c04_hierarchy at h
  split at h
  · exact Except.noConfusion h
  · injection h with hout
    have hperm : out.Perm (hierRowsOf records pfx) :=
      hout ▸ List.perm_insertionSort _ _
    refine ⟨hperm, fun r hr => ?_⟩
    have hr' : r ∈ hierRowsOf records pfx := hperm.mem_iff.1 hr
    unfold hierRowsOf at hr'
    rcases List.mem_flatMap.1 hr' with ⟨rec, _, hrec⟩
    rcases List.mem_map.1 hrec with ⟨tn, htn, rfl⟩
    exact ⟨(List.mem_filter.1 htn).2, rfl⟩

/-- Witness for C6 at a concrete input, exercising the non-segment-aware
prefix match: the tree number `C040` also matches the filter `C04`. -/
theorem hierarchy_rows_exact_witness :
    ([⟨"D1".toList, "N".toList, "C04.588".toList, 2⟩,
      ⟨"D1".toList, "N".toList, "C040".toList, 1⟩] : List HierRow).Perm
      (([⟨"D1".toList, some "N".toList,
          ["C04.588".toList, "C040".toList, "A.B.C".toList]⟩] :
        List MeshRecord).flatMap (fun rec =>
        (rec.mn.filter (fun tn => ("C04".toList).isPrefixOf tn)).map (fun tn =>
          ⟨rec.ui, rec.mh.getD [], tn, tn.count '.' + 1⟩))) ∧
    ∀ r ∈ ([⟨"D1".toList, "N".toList, "C04.588".toList, 2⟩,
        ⟨"D1".toList, "N".toList, "C040".toList, 1⟩] : List HierRow),
      ("C04".toList).isPrefixOf r.tree_number = true ∧
      r.level = r.tree_number.count '.' + 1 :=
  hierarchy_rows_exact
    [⟨"D1".toList, some "N".toList,
      ["C04.588".toList, "C040".toList, "A.B.C".toList]⟩]
    "C04".toList
    [⟨"D1".toList, "N".toList, "C04.588".toList, 2⟩,
     ⟨"D1".toList, "N".toList, "C040".toList, 1⟩]
    (by rfl)

/-- Claim C10 (amended): the hierarchy extraction returns a table exactly
when at least one (record, tree number) pair matches the filter string;
with no qualifying pair it raises instead (the pandas `KeyError` from
sorting a column-less empty frame), so it is not total. -/
theorem hierarchy_extraction_ok_iff (records : List MeshRecord) (pfx : Str) :
    (∃ out, extract_c04_hierarchy records pfx = .ok out) ↔
      ∃ rec ∈ records, ∃ tn ∈ rec.mn, pfx.isPrefixOf tn = true := by
  constructor
  · rintro ⟨out, h⟩
    unfold extract_c04_hierarchy at h
    split at h
    · exact Except.noConfusion h
    · next hne =>
      rcases List.exists_mem_of_ne_nil _ hne with ⟨x, hx⟩
      unfold hierRowsOf at hx
      rcases List.mem_flatMap.1 hx with ⟨rec, hrec, hx'⟩
      rcases List.mem_map.1 hx' with ⟨tn, htn, _⟩
      exact ⟨rec, hrec, tn, (List.mem_filter.1 htn).1, (List.mem_filter.1 htn).2⟩
  · rintro ⟨rec, hrec, tn, htn, hpfx⟩
    have hmem : (⟨rec.ui, rec.mh.getD [], tn, tn.count '.' + 1⟩ : HierRow) ∈
        hierRowsOf records pfx := by
      unfold hierRowsOf
      exact List.mem_flatMap.2 ⟨rec, hrec,
        List.mem_map.2 ⟨tn, List.mem_filter.2 ⟨htn, hpfx⟩, rfl⟩⟩
    have hne : hierRowsOf records pfx ≠ [] := List.ne_nil_of_mem hmem
    refine ⟨List.insertionSort (fun a b => hierSortLe a b = true)
      (hierRowsOf records pfx), ?_⟩
    unfold extract_c04_hierarchy
    simp [hne]

/-- Witness for the amended C10 claim at a concrete input. -/
theorem hierarchy_extraction_ok_iff_witness :
    ∃ out, extract_c04_hierarchy
        [⟨"D2".toList, none, ["C04".toList]⟩] "C04".toList = .ok out :=
  (hierarchy_extraction_ok_iff _ _).2
    ⟨⟨"D2".toList, none, ["C04".toList]⟩, by decide, "C04".toList, by decide,
      by decide⟩

/-- Counterexample to claim C10 as stated: on an input with no
qualifying tree path (here, no records at all) the extraction raises
rather than returning an empty table. -/
theorem hierarchy_extraction_empty_errors :
    extract_c04_hierarchy [] "C04".toList = .error () := by
  rfl

/-- Claim C7: cross-reference extraction matches case-insensitively
against the `mesh:` tag, strips the five-character prefix, keeps the
original order, maps a null reference list to the absent value, and
never returns an empty list — no match also yields the absent value. -/
theorem xref_extraction_characterization :
    get_mesh_ids none = none ∧
    (∀ xrefs, get_mesh_ids xrefs ≠ some []) ∧
    ∀ refs : List Str,
      get_mesh_ids (some refs) =
        (if (refs.filter (fun ref =>
              decide (ref ≠ []) && meshTagLower.isPrefixOf (strLower ref))) = []
         then none
         else some ((refs.filter (fun ref =>
              decide (ref ≠ []) && meshTagLower.isPrefixOf (strLower ref))).map
            (fun ref => ref.drop 5))) := by
  have hfold : ∀ (refs : List Str),
      meshIdsOf refs =
      (refs.filter (fun ref =>
        decide (ref ≠ []) && meshTagLower.isPrefixOf (strLower ref))).map
          (fun ref => ref.drop 5) := by
    have haux : ∀ (refs acc : List Str),
        refs.foldl (fun acc ref =>
          if ref ≠ [] ∧ meshTagLower.isPrefixOf (strLower ref) then acc ++ [ref.drop 5]
          else acc) acc =
        acc ++ (refs.filter (fun ref =>
          decide (ref ≠ []) && meshTagLower.isPrefixOf (strLower ref))).map
            (fun ref => ref.drop 5) := by
      intro refs
      induction refs with
      | nil => intro acc; simp
      | cons ref rest ih =>
        intro acc
        rw [List.foldl_cons, List.filter_cons]
        by_cases hp : ref ≠ [] ∧ meshTagLower.isPrefixOf (strLower ref) = true
        · rw [if_pos hp, ih]
          have hb : (decide (ref ≠ []) && meshTagLower.isPrefixOf (strLower ref)) = true := by
            simp [hp.1, hp.2]
          rw [hb]
          simp
        · rw [if_neg hp, ih]
          have hb : (decide (ref ≠ []) && meshTagLower.isPrefixOf (strLower ref)) = false := by
            rcases not_and_or.1 hp with hc | hc
            · simp [not_not.1 (fun hn => hc hn)]
            · simp only [Bool.and_eq_false_iff]
              right
              exact Bool.not_eq_true _ ▸ hc
          rw [hb]
          simp
    intro refs
    have := haux refs []
    simpa [meshIdsOf] using this
  refine ⟨rfl, ?_, ?_⟩
  · intro xrefs
    match xrefs with
    | none => simp [get_mesh_ids]
    | some refs =>
      unfold get_mesh_ids
      split
      · simp
      · next hne => simp [hne]
  · intro refs
    have hg : get_mesh_ids (some refs) =
        if meshIdsOf refs = [] then none else some (meshIdsOf refs) := rfl
    rw [hg, hfold refs]
    by_cases hnil : (refs.filter (fun ref =>
        decide (ref ≠ []) && meshTagLower.isPrefixOf (strLower ref))) = []
    · simp [hnil]
    · have hmapne : (refs.filter (fun ref =>
          decide (ref ≠ []) && meshTagLower.isPrefixOf (strLower ref))).map
            (fun ref => ref.drop 5) ≠ [] := by
        intro hm
        exact hnil (List.map_eq_nil_iff.1 hm)
      rw [if_neg hmapne, if_neg hnil]

/-- Witness for C7 at a concrete reference list, exercising
case-insensitive matching, order preservation and prefix stripping. -/
theorem xref_extraction_characterization_witness :
    get_mesh_ids (some ["MeSH:D001943".toList, "OMIM:114480".toList,
        "MESH:D002".toList]) = some ["D001943".toList, "D002".toList] := by
  rw [xref_extraction_characterization.2.2]
  decide

/-- Claim C8: the disease filter keeps exactly the rows whose ancestor
list contains the cancer root, excluding the cancer root's own row; a
missing ancestor list simply means non-membership. -/
theorem cancer_disease_filter_mem (diseases : List DiseaseRow)
    (cancer_ta : Str) (r : DiseaseRow) :
    r ∈ filter_cancer_diseases diseases cancer_ta ↔
      r ∈ diseases ∧ (∃ l, r.ancestors = some l ∧ cancer_ta ∈ l) ∧
        r.id ≠ cancer_ta := by
  have hanc : ∀ o, has_neoplasm_ancestor cancer_ta o = true ↔
      ∃ l, o = some l ∧ cancer_ta ∈ l := by
    intro o
    match o with
    | none => simp [has_neoplasm_ancestor]
    | some l => simp [has_neoplasm_ancestor]
  unfold filter_cancer_diseases
  simp only [List.mem_filter, decide_eq_true_eq, hanc, and_assoc]

/-- Witness for C8 at a concrete table: a row with a null ancestor list
and the cancer root's own row are both excluded; the cancer descendant
survives. -/
theorem cancer_disease_filter_mem_witness :
    (⟨"EFO_1".toList, "melanoma".toList, some ["EFO_0000616".toList], none⟩ :
        DiseaseRow) ∈
      filter_cancer_diseases
        [⟨"EFO_1".toList, "melanoma".toList, some ["EFO_0000616".toList], none⟩,
         ⟨"EFO_2".toList, "orphan".toList, none, none⟩,
         ⟨"EFO_0000616".toList, "neoplasm".toList, some ["EFO_0000616".toList], none⟩]
        "EFO_0000616".toList :=
  (cancer_disease_filter_mem _ _ _).2
    ⟨by decide, ⟨["EFO_0000616".toList], rfl, by decide⟩, by decide⟩

/-- Claim C4: a successful crosswalk build has exactly one output row
per (diseaseId, meshId) pair occurring in the exploded-and-joined rows,
and each retained row is a joined row whose level is the numerically
lowest among all joined rows for that pair. -/
theorem crosswalk_dedup_most_specific (cancer : List CancerDisease)
    (hier : List HierRow) (out : List CrosswalkRow)
    (h : build_disease_mesh_crosswalk cancer hier = .ok out) :
    (out.map cwKey).Nodup ∧
    (∀ s ∈ joinHierarchy (explodeMeshIds cancer) hier,
      ∃ r ∈ out, cwKey r = cwKey s) ∧
    (∀ r ∈ out, r ∈ joinHierarchy (explodeMeshIds cancer) hier ∧
      ∀ s ∈ joinHierarchy (explodeMeshIds cancer) hier,
        cwKey s = cwKey r → r.level ≤ s.level) := by
  unfold build_disease_mesh_crosswalk at h
  split at h
  · exact Except.noConfusion h
  · injection h with hout
    have hperm1 : (List.insertionSort (fun a b : CrosswalkRow => b.level ≤ a.level)
        (joinHierarchy (explodeMeshIds cancer) hier)).Perm
        (joinHierarchy (explodeMeshIds cancer) hier) :=
      List.perm_insertionSort _ _
    have houtperm : out.Perm (keepLastBy cwKey
        (List.insertionSort (fun a b : CrosswalkRow => b.level ≤ a.level)
          (joinHierarchy (explodeMeshIds cancer) hier))) :=
      hout ▸ List.perm_insertionSort _ _
    have hsorted : (List.insertionSort (fun a b : CrosswalkRow => b.level ≤ a.level)
        (joinHierarchy (explodeMeshIds cancer) hier)).Pairwise
        (fun a b => b.level ≤ a.level) := by
      haveI : IsTotal CrosswalkRow (fun a b => b.level ≤ a.level) :=
        ⟨fun a b => le_total b.level a.level⟩
      haveI : IsTrans CrosswalkRow (fun a b => b.level ≤ a.level) :=
        ⟨fun _ _ _ hab hbc => le_trans hbc hab⟩
      exact List.sorted_insertionSort _ _
    refine ⟨?_, ?_, ?_⟩
    · exact (houtperm.map cwKey).nodup_iff.2 (keepLastBy_keys_nodup cwKey _)
    · intro s hs
      rcases keepLastBy_keys_complete cwKey _ s (hperm1.mem_iff.2 hs) with ⟨b, hb, hkb⟩
      exact ⟨b, houtperm.mem_iff.2 hb, hkb⟩
    · intro r hr
      have hr' := houtperm.mem_iff.1 hr
      refine ⟨hperm1.mem_iff.1 (keepLastBy_subset cwKey _ r hr'), fun s hs hks => ?_⟩
      exact keepLastBy_min cwKey (fun x => x.level) _ hsorted r hr' s
        (hperm1.mem_iff.2 hs) hks

/-- Witness for C4: the spec's concrete example — one disease mapped to
one term at levels 3 and 5 yields a single crosswalk row at level 3. -/
theorem crosswalk_dedup_most_specific_witness :
    (([⟨"D".toList, "dis".toList, "T".toList, "n".toList, "C04.1.2".toList, 3⟩] :
        List CrosswalkRow).map cwKey).Nodup ∧
    (∀ s ∈ joinHierarchy
        (explodeMeshIds [⟨"D".toList, "dis".toList, some ["T".toList]⟩])
        [⟨"T".toList, "n".toList, "C04.588.1.2.3".toList, 5⟩,
         ⟨"T".toList, "n".toList, "C04.1.2".toList, 3⟩],
      ∃ r ∈ ([⟨"D".toList, "dis".toList, "T".toList, "n".toList, "C04.1.2".toList, 3⟩] :
        List CrosswalkRow), cwKey r = cwKey s) ∧
    (∀ r ∈ ([⟨"D".toList, "dis".toList, "T".toList, "n".toList, "C04.1.2".toList, 3⟩] :
        List CrosswalkRow),
      r ∈ joinHierarchy
        (explodeMeshIds [⟨"D".toList, "dis".toList, some ["T".toList]⟩])
        [⟨"T".toList, "n".toList, "C04.588.1.2.3".toList, 5⟩,
         ⟨"T".toList, "n".toList, "C04.1.2".toList, 3⟩] ∧
      ∀ s ∈ joinHierarchy
        (explodeMeshIds [⟨"D".toList, "dis".toList, some ["T".toList]⟩])
        [⟨"T".toList, "n".toList, "C04.588.1.2.3".toList, 5⟩,
         ⟨"T".toList, "n".toList, "C04.1.2".toList, 3⟩],
        cwKey s = cwKey r → r.level ≤ s.level) :=
  crosswalk_dedup_most_specific
    [⟨"D".toList, "dis".toList, some ["T".toList]⟩]
    [⟨"T".toList, "n".toList, "C04.588.1.2.3".toList, 5⟩,
     ⟨"T".toList, "n".toList, "C04.1.2".toList, 3⟩]
    [⟨"D".toList, "dis".toList, "T".toList, "n".toList, "C04.1.2".toList, 3⟩]
    (by rfl)

theorem unique_key_filter (cw : List CrosswalkRow)
    (hkeys : (cw.map cwKey).Nodup) (d t : Str) :
    (cw.filter (fun c => decide (c.diseaseId = d) && decide (c.meshId = t)) = []
      ∧ cw.any (fun c => decide (c.diseaseId = d ∧ c.meshId = t)) = false) ∨
    (∃ c₀ ∈ cw, c₀.diseaseId = d ∧ c₀.meshId = t ∧
      cw.filter (fun c => decide (c.diseaseId = d) && decide (c.meshId = t)) = [c₀]
      ∧ cw.any (fun c => decide (c.diseaseId = d ∧ c.meshId = t)) = true) := by
  induction cw with
  | nil => exact Or.inl ⟨rfl, rfl⟩
  | cons c rest ih =>
    simp only [List.map_cons, List.nodup_cons] at hkeys
    rcases hkeys with ⟨hknotin, hkrest⟩
    by_cases hc : c.diseaseId = d ∧ c.meshId = t
    · have hpred : (decide (c.diseaseId = d) && decide (c.meshId = t)) = true := by
        simp [hc.1, hc.2]
      have hrestnil : rest.filter
          (fun x => decide (x.diseaseId = d) && decide (x.meshId = t)) = [] := by
        rw [List.filter_eq_nil_iff]
        intro x hx hpx
        simp only [Bool.and_eq_true, decide_eq_true_eq] at hpx
        apply hknotin
        have : cwKey x = cwKey c := by
          unfold cwKey
          rw [hpx.1, hpx.2, hc.1, hc.2]
        exact this ▸ List.mem_map_of_mem cwKey hx
      refine Or.inr ⟨c, List.mem_cons_self _ _, hc.1, hc.2, ?_, ?_⟩
      · rw [List.filter_cons, if_pos hpred, hrestnil]
      · simp [List.any_cons, hc]
    · have hpred : (decide (c.diseaseId = d) && decide (c.meshId = t)) = false := by
        rcases not_and_or.1 hc with hd | ht
        · simp [hd]
        · simp [ht]
      have hany : (decide (c.diseaseId = d ∧ c.meshId = t)) = false := by
        simp [hc]
      rcases ih hkrest with ⟨hfil, hany'⟩ | ⟨c₀, hc₀, hd₀, ht₀, hfil, hany'⟩
      · refine Or.inl ⟨?_, ?_⟩
        · rw [List.filter_cons, if_neg (by simp [hpred]), hfil]
        · rw [List.any_cons, hany, hany']
          rfl
      · refine Or.inr ⟨c₀, List.mem_cons_of_mem c hc₀, hd₀, ht₀, ?_, ?_⟩
        · rw [List.filter_cons, if_neg (by simp [hpred]), hfil]
        · rw [List.any_cons, hany, hany']
          rfl

theorem inner_filter_eq (cw : List CrosswalkRow)
    (hkeys : (cw.map cwKey).Nodup) (a : AssocRow) (g t : Str) :
    ((cw.filter (fun c => decide (c.diseaseId = a.diseaseId))).map
        (fun c => (a, c.meshId))).filter
      (fun p => decide ((p.1.targetId, p.2) = (g, t))) =
    if (decide (a.targetId = g) &&
        cw.any (fun c => decide (c.diseaseId = a.diseaseId ∧ c.meshId = t))) = true
    then [(a, t)] else [] := by
  rw [List.filter_map, List.filter_filter]
  by_cases hg : a.targetId = g
  · have hcong : cw.filter (fun c =>
        ((fun p : AssocRow × Str => decide ((p.1.targetId, p.2) = (g, t))) ∘
          (fun c => (a, c.meshId))) c && decide (c.diseaseId = a.diseaseId)) =
      cw.filter (fun c => decide (c.diseaseId = a.diseaseId) && decide (c.meshId = t)) := by
      apply List.filter_congr
      intro x _
      simp only [Function.comp, decide_eq_true_eq, Prod.mk.injEq, hg]
      rw [Bool.and_comm]
      simp
    rw [hcong]
    rcases unique_key_filter cw hkeys a.diseaseId t with ⟨hfil, hany⟩ | ⟨c₀, _, _, ht₀, hfil, hany⟩
    · rw [hfil, if_neg (by rw [hany, Bool.and_false]; simp)]
      rfl
    · rw [hfil, if_pos (by rw [hany, Bool.and_true]; simp [hg])]
      simp [ht₀]
  · have hcong : cw.filter (fun c =>
        ((fun p : AssocRow × Str => decide ((p.1.targetId, p.2) = (g, t))) ∘
          (fun c => (a, c.meshId))) c && decide (c.diseaseId = a.diseaseId)) =
      cw.filter (fun _ => false) := by
      apply List.filter_congr
      intro x _
      simp [Function.comp, Prod.ext_iff, hg]
    rw [hcong, List.filter_false, if_neg (by simp [hg])]
    rfl

theorem joinedAssoc_eq_flatMap (assoc : List AssocRow) (cw : List CrosswalkRow) :
    joinedAssoc assoc cw = assoc.flatMap (fun a =>
      (cw.filter (fun c => decide (c.diseaseId = a.diseaseId))).map
        (fun c => (a, c.meshId))) := by
  unfold joinedAssoc
  apply flatMap_filter_of_nil
  intro a _ hfalse
  have hnmem : a.diseaseId ∉ cw.map (fun c => c.diseaseId) := of_decide_eq_false hfalse
  have hfil : cw.filter (fun c => decide (c.diseaseId = a.diseaseId)) = [] := by
    rw [List.filter_eq_nil_iff]
    intro c hc hpc
    exact hnmem ((of_decide_eq_true hpc) ▸ List.mem_map_of_mem (fun c => c.diseaseId) hc)
  rw [hfil]
  rfl

theorem joined_filter_eq (assoc : List AssocRow) (cw : List CrosswalkRow)
    (hkeys : (cw.map cwKey).Nodup) (g t : Str) :
    (joinedAssoc assoc cw).filter (fun p => decide ((p.1.targetId, p.2) = (g, t))) =
    (assoc.filter (fun a => decide (a.targetId = g) &&
      cw.any (fun c => decide (c.diseaseId = a.diseaseId ∧ c.meshId = t)))).map
        (fun a => (a, t)) := by
  rw [joinedAssoc_eq_flatMap, filter_flatMap]
  rw [show (fun a : AssocRow =>
      ((cw.filter (fun c => decide (c.diseaseId = a.diseaseId))).map
        (fun c => (a, c.meshId))).filter
          (fun p => decide ((p.1.targetId, p.2) = (g, t)))) =
    (fun a : AssocRow =>
      if (decide (a.targetId = g) &&
          cw.any (fun c => decide (c.diseaseId = a.diseaseId ∧ c.meshId = t))) = true
      then [(a, t)] else []) from funext (fun a => inner_filter_eq cw hkeys a g t)]
  exact flatMap_ite_singleton _ _ assoc

/-- Claim C5: the aggregator's output never has duplicate
(gene, term) pairs; and when the disease-term pair table satisfies its
one-row-per-(disease, term) invariant, each output row's score is the
maximum association score over the contributing association rows —
those carrying the gene whose disease maps to the term through the
crosswalk — and its evidence count is the sum over those same rows. -/
theorem aggregator_unique_max_sum (assoc : List AssocRow) (cw : List CrosswalkRow) :
    ((build_final_dataset assoc cw).map (fun r => (r.targetId, r.meshId))).Nodup ∧
    ((cw.map cwKey).Nodup →
      ∀ r ∈ build_final_dataset assoc cw,
        (assoc.filter (fun a => decide (a.targetId = r.targetId) &&
          cw.any (fun c => decide (c.diseaseId = a.diseaseId ∧ c.meshId = r.meshId)))) ≠ [] ∧
        r.score = maxScore ((assoc.filter (fun a => decide (a.targetId = r.targetId) &&
          cw.any (fun c => decide (c.diseaseId = a.diseaseId ∧ c.meshId = r.meshId)))).map
            (fun a => a.score)) ∧
        r.evidenceCount = ((assoc.filter (fun a => decide (a.targetId = r.targetId) &&
          cw.any (fun c => decide (c.diseaseId = a.diseaseId ∧ c.meshId = r.meshId)))).map
            (fun a => a.evidenceCount)).sum) := by
  constructor
  · have h1 : (build_final_dataset assoc cw).map (fun r => (r.targetId, r.meshId)) =
        List.insertionSort (fun k1 k2 => pairLe k1 k2 = true)
          (dedupKeys ((joinedAssoc assoc cw).map (fun p => (p.1.targetId, p.2)))) := by
      unfold build_final_dataset
      rw [List.map_map]
      exact List.map_id _
    rw [h1]
    exact (List.perm_insertionSort _ _).nodup_iff.2 (dedupKeys_nodup _)
  · intro hkeys r hr
    unfold build_final_dataset at hr
    rcases List.mem_map.1 hr with ⟨k, hk, rfl⟩
    obtain ⟨g, t⟩ := k
    have hk1 : (g, t) ∈ dedupKeys ((joinedAssoc assoc cw).map
        (fun p => (p.1.targetId, p.2))) :=
      (List.perm_insertionSort _ _).mem_iff.1 hk
    have hk2 : (g, t) ∈ (joinedAssoc assoc cw).map (fun p => (p.1.targetId, p.2)) :=
      (mem_dedupKeys _ _).1 hk1
    rcases List.mem_map.1 hk2 with ⟨p, hp, hkp⟩
    have hcontrib := joined_filter_eq assoc cw hkeys g t
    have hpmem : p ∈ (joinedAssoc assoc cw).filter
        (fun p => decide ((p.1.targetId, p.2) = (g, t))) :=
      List.mem_filter.2 ⟨hp, decide_eq_true hkp⟩
    refine ⟨?_, ?_, ?_⟩
    · intro hnil
      rw [hcontrib, hnil] at hpmem
      simp at hpmem
    · calc (maxScore (((joinedAssoc assoc cw).filter
            (fun p => decide ((p.1.targetId, p.2) = (g, t)))).map (fun p => p.1.score)))
          = maxScore (((assoc.filter (fun a => decide (a.targetId = g) &&
              cw.any (fun c => decide (c.diseaseId = a.diseaseId ∧ c.meshId = t)))).map
                (fun a => (a, t))).map (fun p => p.1.score)) := by rw [hcontrib]
        _ = maxScore ((assoc.filter (fun a => decide (a.targetId = g) &&
              cw.any (fun c => decide (c.diseaseId = a.diseaseId ∧ c.meshId = t)))).map
                (fun a => a.score)) := by rw [List.map_map]; rfl
    · calc ((((joinedAssoc assoc cw).filter
            (fun p => decide ((p.1.targetId, p.2) = (g, t)))).map
              (fun p => p.1.evidenceCount)).sum)
          = (((assoc.filter (fun a => decide (a.targetId = g) &&
              cw.any (fun c => decide (c.diseaseId = a.diseaseId ∧ c.meshId = t)))).map
                (fun a => (a, t))).map (fun p => p.1.evidenceCount)).sum := by rw [hcontrib]
        _ = ((assoc.filter (fun a => decide (a.targetId = g) &&
              cw.any (fun c => decide (c.diseaseId = a.diseaseId ∧ c.meshId = t)))).map
                (fun a => a.evidenceCount)).sum := by rw [List.map_map]; rfl

/-- Witness for C5: the spec's concrete aggregation example — two
diseases mapping to one term and carrying one gene give max score and
summed evidence. -/
theorem aggregator_unique_max_sum_witness :
    ([⟨"D1".toList, "G".toList, 1, 5⟩, ⟨"D2".toList, "G".toList, 0, 3⟩] :
        List AssocRow).filter (fun a => decide (a.targetId = "G".toList) &&
      ([⟨"D1".toList, "x".toList, "T".toList, "n".toList, "p".toList, 3⟩,
        ⟨"D2".toList, "y".toList, "T".toList, "n".toList, "q".toList, 4⟩] :
          List CrosswalkRow).any (fun c =>
        decide (c.diseaseId = a.diseaseId ∧ c.meshId = "T".toList))) ≠ [] ∧
    (1 : ℚ) = maxScore ((([⟨"D1".toList, "G".toList, 1, 5⟩,
        ⟨"D2".toList, "G".toList, 0, 3⟩] :
        List AssocRow).filter (fun a => decide (a.targetId = "G".toList) &&
      ([⟨"D1".toList, "x".toList, "T".toList, "n".toList, "p".toList, 3⟩,
        ⟨"D2".toList, "y".toList, "T".toList, "n".toList, "q".toList, 4⟩] :
          List CrosswalkRow).any (fun c =>
        decide (c.diseaseId = a.diseaseId ∧ c.meshId = "T".toList)))).map
          (fun a => a.score)) ∧
    (8 : Nat) = ((([⟨"D1".toList, "G".toList, 1, 5⟩,
        ⟨"D2".toList, "G".toList, 0, 3⟩] :
        List AssocRow).filter (fun a => decide (a.targetId = "G".toList) &&
      ([⟨"D1".toList, "x".toList, "T".toList, "n".toList, "p".toList, 3⟩,
        ⟨"D2".toList, "y".toList, "T".toList, "n".toList, "q".toList, 4⟩] :
          List CrosswalkRow).any (fun c =>
        decide (c.diseaseId = a.diseaseId ∧ c.meshId = "T".toList)))).map
          (fun a => a.evidenceCount)).sum :=
  (aggregator_unique_max_sum
    [⟨"D1".toList, "G".toList, 1, 5⟩, ⟨"D2".toList, "G".toList, 0, 3⟩]
    [⟨"D1".toList, "x".toList, "T".toList, "n".toList, "p".toList, 3⟩,
     ⟨"D2".toList, "y".toList, "T".toList, "n".toList, "q".toList, 4⟩]).2
    (by decide) ⟨"G".toList, "T".toList, 1, 8⟩ (by decide)

theorem merge_dropna_eq (df : List GeneMeshRow) (m : List (Nat × Str)) :
    ((df.map (fun r => (r, lookupEnsembl m r.targetId))).filterMap
        (fun p => p.2.map (fun e => (p.1, e)))).map
      (fun p => (⟨p.1.meshId, p.2, p.1.score, p.1.evidenceCount⟩ : FinalRow)) =
    (df.filter (fun r => (lookupEnsembl m r.targetId).isSome)).map
      (fun r => (⟨r.meshId, (lookupEnsembl m r.targetId).getD 0,
        r.score, r.evidenceCount⟩ : FinalRow)) := by
  induction df with
  | nil => rfl
  | cons r rest ih =>
    rw [List.map_cons, List.filterMap_cons, List.filter_cons]
    cases hl : lookupEnsembl m r.targetId with
    | none => simpa [hl] using ih
    | some e => simpa [hl] using ih

theorem add_entrez_core_perm (df : List GeneMeshRow) (m : List (Nat × Str)) :
    (add_entrez_core df m).Perm
      ((df.filter (fun r => (lookupEnsembl m r.targetId).isSome)).map
        (fun r => (⟨r.meshId, (lookupEnsembl m r.targetId).getD 0,
          r.score, r.evidenceCount⟩ : FinalRow))) := by
  unfold add_entrez_core
  rw [merge_dropna_eq]
  exact List.perm_insertionSort _ _

/-- Claim C9: up to the final sort, the remapper's output consists of
exactly one row per input row whose source gene id has a mapping in the
deduplicated crosswalk; a row whose source id has no entry contributes
nothing — it is dropped entirely, not retained with a null. -/
theorem remapper_drops_unmapped (df : List GeneMeshRow)
    (raw : List Gene2EnsemblRow) (tax : Nat) :
    (add_entrez_run df raw tax).Perm
      ((df.filter (fun r =>
          (lookupEnsembl (load_gene2ensembl raw tax) r.targetId).isSome)).map
        (fun r => (⟨r.meshId,
          (lookupEnsembl (load_gene2ensembl raw tax) r.targetId).getD 0,
          r.score, r.evidenceCount⟩ : FinalRow))) := by
  unfold add_entrez_run
  exact add_entrez_core_perm df _

/-- Counterexample to claim C1 as stated: two distinct Ensembl ids that
map to the same Entrez id produce two output rows with the same
(disease_mesh_id, gene_entrez_id) pair — the final table is not unique
per pair for every crosswalk. -/
theorem remapper_duplicate_pair_counterexample :
    ¬ ((add_entrez_run
        [⟨"ENSG1".toList, "D001943".toList, 1, 1⟩,
         ⟨"ENSG2".toList, "D001943".toList, 1, 1⟩]
        [⟨9606, 7157, "ENSG1".toList⟩, ⟨9606, 7157, "ENSG2".toList⟩]
        9606).map (fun r => (r.disease_mesh_id, r.gene_entrez_id))).Nodup := by
  decide

/-- Claim C1 (amended): the final table has one row per
(disease_mesh_id, gene_entrez_id) pair provided the input aggregated
table is unique per (source gene id, term id) and the deduplicated
crosswalk maps distinct source ids occurring in the input to distinct
target ids; without that injectivity the pair can repeat. -/
theorem remapper_unique_pairs_of_injective (df : List GeneMeshRow)
    (raw : List Gene2EnsemblRow) (tax : Nat)
    (hdf : (df.map (fun r => (r.targetId, r.meshId))).Nodup)
    (hinj : ∀ r ∈ df, ∀ s ∈ df,
      (lookupEnsembl (load_gene2ensembl raw tax) r.targetId).isSome = true →
      lookupEnsembl (load_gene2ensembl raw tax) r.targetId =
        lookupEnsembl (load_gene2ensembl raw tax) s.targetId →
      r.targetId = s.targetId) :
    ((add_entrez_run df raw tax).map
      (fun r => (r.disease_mesh_id, r.gene_entrez_id))).Nodup := by
  have hperm := (add_entrez_core_perm df (load_gene2ensembl raw tax)).map
    (fun r : FinalRow => (r.disease_mesh_id, r.gene_entrez_id))
  apply hperm.nodup_iff.2
  rw [List.map_map]
  have hsub : (df.filter (fun r =>
      (lookupEnsembl (load_gene2ensembl raw tax) r.targetId).isSome)).Sublist df :=
    List.filter_sublist df
  have hnodupkeys : ((df.filter (fun r =>
      (lookupEnsembl (load_gene2ensembl raw tax) r.targetId).isSome)).map
        (fun r => (r.targetId, r.meshId))).Nodup :=
    (hsub.map _).nodup hdf
  apply List.Nodup.map_on
  · intro x hx y hy hxy
    have hxmem := (List.mem_filter.1 hx).1
    have hymem := (List.mem_filter.1 hy).1
    have hxs := (List.mem_filter.1 hx).2
    have hys := (List.mem_filter.1 hy).2
    rcases Option.isSome_iff_exists.1 hxs with ⟨ex, hex⟩
    rcases Option.isSome_iff_exists.1 hys with ⟨ey, hey⟩
    have hmesh : x.meshId = y.meshId := congrArg Prod.fst hxy
    have hgetd : (lookupEnsembl (load_gene2ensembl raw tax) x.targetId).getD 0 =
        (lookupEnsembl (load_gene2ensembl raw tax) y.targetId).getD 0 :=
      congrArg Prod.snd hxy
    rw [hex, hey] at hgetd
    simp only [Option.getD_some] at hgetd
    have htid : x.targetId = y.targetId := by
      apply hinj x hxmem y hymem hxs
      rw [hex, hey, hgetd]
    have hkey : (x.targetId, x.meshId) = (y.targetId, y.meshId) := by
      rw [htid, hmesh]
    exact List.inj_on_of_nodup_map hnodupkeys hx hy hkey
  · exact List.Nodup.of_map _ hnodupkeys

/-- Witness for the amended C1 claim: with an injective crosswalk the
final pairs are unique. -/
theorem remapper_unique_pairs_witness :
    ((add_entrez_run
        [⟨"E1".toList, "M".toList, 1, 1⟩, ⟨"E2".toList, "M".toList, 1, 1⟩]
        [⟨9606, 1, "E1".toList⟩, ⟨9606, 2, "E2".toList⟩] 9606).map
      (fun r => (r.disease_mesh_id, r.gene_entrez_id))).Nodup :=
  remapper_unique_pairs_of_injective
    [⟨"E1".toList, "M".toList, 1, 1⟩, ⟨"E2".toList, "M".toList, 1, 1⟩]
    [⟨9606, 1, "E1".toList⟩, ⟨9606, 2, "E2".toList⟩] 9606
    (by decide) (by decide)

end OTMesh
